import Mathlib

/-!
Shallow embedding of `src/netlify/functions/vless.ts` (VLESS over XHTTP on
Netlify Edge Functions). Byte arrays (`Uint8Array`) are `List Nat`; a
`ReadableStreamDefaultReader` fed by a `TransformStream` is a list of
fragments (`List (List Nat)`): each `read()` yields the next queued fragment
with `done = false`, and yields `done = true` with no value once the queue is
exhausted after the writer closed. Fallible code returns `Except String`.
-/

set_option maxRecDepth 10000

/-- The `SETTINGS` constant of vless.ts (core configuration). -/
structure Settings where
  UUID : String
  LOG_LEVEL : String
  BUFFER_SIZE : String
  XHTTP_PATH : String
  deriving DecidableEq

/-- `SETTINGS` from vless.ts lines 5-10. -/
def SETTINGS : Settings :=
  { UUID := "0cf85927-2c71-4e87-9df3-b1eb7d5a9e1b"
    LOG_LEVEL := "debug"
    BUFFER_SIZE := "128"
    XHTTP_PATH := "/xblog" }

/-- `validate_uuid(left, right)` from vless.ts: compares positions `0..15`
with JS strict inequality. Out-of-range indexing yields `undefined` in JS
(`none` here); `undefined !== undefined` is `false`, so two missing entries
compare equal, while a missing entry mismatches a present byte. -/
def validate_uuid (left right : List Nat) : Bool :=
  (List.range 16).all (fun i => left.get? i == right.get? i)

/-- `concat_typed_arrays(first, ...args)` from vless.ts: concatenation of the
first array with the rest in order. -/
def concat_typed_arrays (first : List Nat) (args : List (List Nat)) : List Nat :=
  first ++ args.flatten

/-- Value of one hexadecimal digit character, as accepted by JS
`parseInt(s, 16)` (both cases). -/
def hexVal (c : Char) : Option Nat :=
  if '0' ≤ c ∧ c ≤ '9' then some (c.toNat - '0'.toNat)
  else if 'a' ≤ c ∧ c ≤ 'f' then some (c.toNat - 'a'.toNat + 10)
  else if 'A' ≤ c ∧ c ≤ 'F' then some (c.toNat - 'A'.toNat + 10)
  else none

/-- JS `parseInt(s, 16)` on a short string: parse the maximal leading run of
hex digits; no digits means `NaN` (`none`). -/
def parseIntHexChars (cs : List Char) : Option Nat :=
  let ds := cs.takeWhile (fun c => (hexVal c).isSome)
  if ds.isEmpty then none
  else some (ds.foldl (fun acc c => acc * 16 + (hexVal c).getD 0) 0)

/-- `parse_uuid(uuid)` from vless.ts: strip dashes, then for `i = 0..15` take
`parseInt(clean.substr(2*i, 2), 16)`; storing `NaN` into a `Uint8Array`
yields `0`. -/
def parse_uuid (uuid : String) : List Nat :=
  let clean := uuid.toList.filter (fun c => c ≠ '-')
  (List.range 16).map (fun i => (parseIntHexChars ((clean.drop (2 * i)).take 2)).getD 0)

/-- `read_atleast(reader, n)` from vless.ts: pull whole fragments from the
source until at least `n` bytes have accumulated; if the source ends first,
throw (the source message also interpolates the byte counts, which we omit).
On success the returned value is the concatenation of every fragment pulled,
including any surplus beyond `n`; the remaining (unpulled) fragments are
returned as the third component, and the `done` flag of the last `read()` as
the second. -/
def read_atleast : List (List Nat) → Nat → Except String (List Nat × Bool × List (List Nat))
  | fs, 0 => .ok ([], false, fs)
  | [], _ + 1 => .error "not enough data to read"
  | f :: rest, n + 1 =>
    if n + 1 ≤ f.length then .ok (f, false, rest)
    else
      match read_atleast rest (n + 1 - f.length) with
      | .ok (v, d, r) => .ok (f ++ v, d, r)
      | .error e => .error e

/-- The mutable state of `read_vless_header`: bytes delivered so far
(`readed_len`), the accumulated `header`, the `done` flag of the last
`read_result`, and the still-unread fragments of the source. -/
structure HdrState where
  readed_len : Nat
  header : List Nat
  rrDone : Bool
  src : List (List Nat)
  deriving DecidableEq

/-- `inner_read_until(offset)` from vless.ts: throw if the previous read hit
end-of-stream; return unchanged if fewer than one byte is needed; otherwise
`read_atleast` the missing bytes and append them to `header`. A failing
`read_atleast` has exhausted the source, so the state keeps `src := []`. -/
def inner_read_until (s : HdrState) (offset : Nat) : HdrState × Option String :=
  if s.rrDone then (s, some "header length too short")
  else if offset ≤ s.readed_len then (s, none)
  else
    match read_atleast s.src (offset - s.readed_len) with
    | .error e => ({ s with src := [] }, some e)
    | .ok (v, d, rest) =>
      (⟨s.readed_len + v.length, s.header ++ v, d, rest⟩, none)

/-- Unicode replacement character, emitted by `TextDecoder` for invalid
UTF-8 sequences. -/
def replChar : Char := Char.ofNat 0xFFFD

/-- UTF-8 decoding with U+FFFD replacement, modelling
`new TextDecoder().decode(...)` (WHATWG decoder: one replacement per maximal
invalid subpart, resuming at the offending byte). -/
def utf8DecodeChars : List Nat → List Char
  | [] => []
  | b1 :: rest =>
    if b1 < 0x80 then Char.ofNat b1 :: utf8DecodeChars rest
    else if b1 < 0xC2 then replChar :: utf8DecodeChars rest
    else if b1 < 0xE0 then
      match rest with
      | [] => [replChar]
      | b2 :: r2 =>
        if 0x80 ≤ b2 ∧ b2 < 0xC0 then
          Char.ofNat (((b1 - 0xC0) <<< 6) + (b2 - 0x80)) :: utf8DecodeChars r2
        else replChar :: utf8DecodeChars (b2 :: r2)
    else if b1 < 0xF0 then
      match rest with
      | [] => [replChar]
      | b2 :: r2 =>
        if (if b1 = 0xE0 then 0xA0 else 0x80) ≤ b2 ∧ b2 ≤ (if b1 = 0xED then 0x9F else 0xBF) then
          match r2 with
          | [] => [replChar]
          | b3 :: r3 =>
            if 0x80 ≤ b3 ∧ b3 < 0xC0 then
              Char.ofNat (((b1 - 0xE0) <<< 12) + ((b2 - 0x80) <<< 6) + (b3 - 0x80)) ::
                utf8DecodeChars r3
            else replChar :: utf8DecodeChars (b3 :: r3)
        else replChar :: utf8DecodeChars (b2 :: r2)
    else if b1 < 0xF5 then
      match rest with
      | [] => [replChar]
      | b2 :: r2 =>
        if (if b1 = 0xF0 then 0x90 else 0x80) ≤ b2 ∧ b2 ≤ (if b1 = 0xF4 then 0x8F else 0xBF) then
          match r2 with
          | [] => [replChar]
          | b3 :: r3 =>
            if 0x80 ≤ b3 ∧ b3 < 0xC0 then
              match r3 with
              | [] => [replChar]
              | b4 :: r4 =>
                if 0x80 ≤ b4 ∧ b4 < 0xC0 then
                  Char.ofNat (((b1 - 0xF0) <<< 18) + ((b2 - 0x80) <<< 12) +
                      ((b3 - 0x80) <<< 6) + (b4 - 0x80)) :: utf8DecodeChars r4
                else replChar :: utf8DecodeChars (b4 :: r4)
            else replChar :: utf8DecodeChars (b3 :: r3)
        else replChar :: utf8DecodeChars (b2 :: r2)
    else replChar :: utf8DecodeChars rest

/-- `new TextDecoder().decode(bytes)` as a Lean `String`. -/
def textDecoderDecode (bs : List Nat) : String :=
  String.mk (utf8DecodeChars bs)

/-- JS `Number.prototype.toString(16)` for a natural number: lowercase hex,
no padding. -/
def toHex (n : Nat) : String :=
  String.mk (Nat.toDigits 16 n)

/-- The IPv6 branch of the hostname computation in `read_vless_header`: the
sixteen address bytes reduce to eight big-endian 16-bit groups rendered in
hex and joined with a colon. -/
def ipv6Hostname (bs : List Nat) : String :=
  String.intercalate ":"
    ((List.range 8).map (fun i => toHex (((bs.getD (2 * i) 0) <<< 8) + bs.getD (2 * i + 1) 0)))

/-- The record returned by `read_vless_header` on success. -/
structure VlessHeader where
  version : Nat
  hostname : String
  port : Nat
  data : List Nat
  resp : List Nat
  deriving DecidableEq

def COMMAND_TYPE_TCP : Nat := 1
def ADDRESS_TYPE_IPV4 : Nat := 1
def ADDRESS_TYPE_STRING : Nat := 2
def ADDRESS_TYPE_IPV6 : Nat := 3

/-- `read_vless_header(reader, cfg_uuid_str)` from vless.ts, additionally
returning the final reader/header state (the reader is stateful in JS, so the
bytes it consumed are observable). Field reads `header[i]` are written with
`getD i 0`; every such index is within `header` whenever it is reached, so
the default is never used. -/
def read_vless_header_core (src : List (List Nat)) (cfg_uuid_str : String) :
    HdrState × Except String VlessHeader :=
  let s0 : HdrState := ⟨0, [], false, src⟩
  match inner_read_until s0 (1 + 16 + 1) with
  | (s1, some e) => (s1, .error e)
  | (s1, none) =>
    let version := s1.header.getD 0 0
    let uuid := (s1.header.drop 1).take 16
    let cfg_uuid := parse_uuid cfg_uuid_str
    if !validate_uuid uuid cfg_uuid then (s1, .error "invalid UUID")
    else
      let pb_len := s1.header.getD (1 + 16) 0
      let addr_plus1 := 1 + 16 + 1 + pb_len + 1 + 2 + 1
      match inner_read_until s1 (addr_plus1 + 1) with
      | (s2, some e) => (s2, .error e)
      | (s2, none) =>
        let cmd := s2.header.getD (1 + 16 + 1 + pb_len) 0
        if cmd ≠ COMMAND_TYPE_TCP then (s2, .error "unsupported command")
        else
          let port := ((s2.header.getD (addr_plus1 - 1 - 2) 0) <<< 8) +
            s2.header.getD (addr_plus1 - 1 - 1) 0
          let atype := s2.header.getD (addr_plus1 - 1) 0
          let hlen? : Option Nat :=
            if atype = ADDRESS_TYPE_IPV4 then some (addr_plus1 + 4)
            else if atype = ADDRESS_TYPE_IPV6 then some (addr_plus1 + 16)
            else if atype = ADDRESS_TYPE_STRING then
              some (addr_plus1 + 1 + s2.header.getD addr_plus1 0)
            else none
          match hlen? with
          | none => (s2, .error "read address type failed")
          | some header_len =>
            match inner_read_until s2 header_len with
            | (s3, some e) => (s3, .error e)
            | (s3, none) =>
              let idx := addr_plus1
              let hostname :=
                if atype = ADDRESS_TYPE_IPV4 then
                  String.intercalate "." (((s3.header.drop idx).take 4).map (fun b => toString b))
                else if atype = ADDRESS_TYPE_STRING then
                  textDecoderDecode ((s3.header.drop (idx + 1)).take (s3.header.getD idx 0))
                else if atype = ADDRESS_TYPE_IPV6 then
                  ipv6Hostname ((s3.header.drop idx).take 16)
                else ""
              if hostname = "" then (s3, .error "parse hostname failed")
              else (s3, .ok ⟨version, hostname, port, s3.header.drop header_len, [version, 0]⟩)

/-- `read_vless_header` proper: the result part of the core. -/
def read_vless_header (src : List (List Nat)) (cfg_uuid_str : String) :
    Except String VlessHeader :=
  (read_vless_header_core src cfg_uuid_str).2

instance {ε α : Type} [DecidableEq ε] [DecidableEq α] : DecidableEq (Except ε α)
  | .ok x, .ok y =>
    if h : x = y then .isTrue (by rw [h]) else .isFalse (fun hc => by cases hc; exact h rfl)
  | .error x, .error y =>
    if h : x = y then .isTrue (by rw [h]) else .isFalse (fun hc => by cases hc; exact h rfl)
  | .ok _, .error _ => .isFalse (fun hc => by cases hc)
  | .error _, .ok _ => .isFalse (fun hc => by cases hc)

/-- The 16 bytes of `parse_uuid SETTINGS.UUID` (the configured secret). -/
def cfgSecret : List Nat :=
  [12, 248, 89, 39, 44, 113, 78, 135, 157, 243, 177, 235, 125, 90, 158, 27]

/-- A complete handshake to `192.168.0.1:443`: version 0, configured secret,
no extra bytes, TCP command, port `0x01BB`, IPv4 address `192.168.0.1`. -/
def hsIPv4 : List Nat :=
  [0] ++ cfgSecret ++ [0, 1, 1, 0xBB, 1, 192, 168, 0, 1]

/-- A complete handshake to `example.com:443`: domain address type with
length byte 11 followed by the UTF-8 bytes of `example.com`. -/
def hsDomain : List Nat :=
  [0] ++ cfgSecret ++ [0, 1, 1, 0xBB, 2, 11,
    101, 120, 97, 109, 112, 108, 101, 46, 99, 111, 109]

/-- A complete handshake to `10.0.0.1:80` (used to exhibit destination
redeclaration). -/
def hsIPv4Alt : List Nat :=
  [0] ++ cfgSecret ++ [0, 1, 0, 80, 1, 10, 0, 0, 1]

/-! ## The per-client session state (`clientRequests` entry) and handlers

The `clientRequests` map of vless.ts keys per-client state by the path
`uuid`. The handlers below are modelled as transformers of the single entry
for that id (`Option ClientData`); no handler touches another id's entry.
JS `Map` iteration/`size` semantics are modelled by an insertion-ordered
association list whose keys stay unique (`mapSet` overwrites in place). -/

/-- `Map.prototype.set` of a JS `Map` as an insertion-ordered association
list: overwrite in place if the key exists, else append. -/
def mapSet (m : List (Int × List Nat)) (k : Int) (v : List Nat) : List (Int × List Nat) :=
  if m.any (fun p => p.1 == k) then m.map (fun p => if p.1 == k then (k, v) else p)
  else m ++ [(k, v)]

/-- `Map.prototype.get`. -/
def mapGet (m : List (Int × List Nat)) (k : Int) : Option (List Nat) :=
  (m.find? (fun p => p.1 == k)).map (fun p => p.2)

/-- `Map.prototype.size` (keys are unique for every map built by `mapSet`). -/
def mapSize (m : List (Int × List Nat)) : Nat := m.length

/-- One entry of `clientRequests` (vless.ts lines 237-246), plus two
observability fields: `writerWrites` logs every write made to the currently
attached downlink writer (`some` iff `clientData.writer` is set; a GET attach
installs a fresh log), and `upstreamWrites` is a ghost log of bytes written
to an upstream channel for this session — vless.ts contains no code path
that writes to any upstream channel (`establishConnection` is referenced but
never defined, and the seq≥1 branch only writes an ACK to the downlink), so
no operation ever extends it. -/
structure ClientData where
  posts : List (Int × List Nat)
  lastActivity : Nat
  writerWrites : Option (List (List Nat))
  maxSeq : Int
  targetInfo : Option (String × Nat)
  upstreamWrites : List (List Nat)
  deriving DecidableEq

/-- Body of an HTTP response: plain text, or the readable side of the
session's `TransformStream` (whose contents are the `writerWrites` log). -/
inductive RespBody
  | text (s : String)
  | stream
  deriving DecidableEq

/-- An HTTP `Response` as far as the claims observe it. -/
structure HttpResponse where
  status : Nat
  body : RespBody
  deriving DecidableEq

/-- The 2048 mock bytes (`i % 256`) fabricated when `establishConnection`
fails (vless.ts lines 372-378 and 503-510). -/
def mockResponse : List Nat := (List.range 2048).map (fun i => i % 256)

/-- The literal "ACK" bytes written by the forwarding branch
(vless.ts line 396). -/
def ackBytes : List Nat := [0x41, 0x43, 0x4B]

/-- `handlePostRequest(request, uuid, seq)` (vless.ts lines 309-425) acting
on this id's `clientRequests` entry. `seq` is the `parseInt` result from the
path (an integer); `body` is the request body, `none` when absent; `now` is
`Date.now()`. The `establishConnection` call on the seq-0 path throws (the
function is never defined), so its `catch` always writes `mockResponse`. -/
def handlePostRequest (entry : Option ClientData) (seq : Int) (body : Option (List Nat))
    (now : Nat) : Option ClientData × HttpResponse :=
  match body with
  | none => (entry, ⟨400, .text "No request body"⟩)
  | some data =>
    let cd0 : ClientData :=
      match entry with
      | none => ⟨[], now, none, -1, none, []⟩
      | some cd => cd
    let cd1 := { cd0 with lastActivity := now }
    let cd2 := { cd1 with posts := mapSet cd1.posts seq data }
    let cd3 :=
      if seq = 0 ∧ mapSize cd2.posts = 1 then
        match read_vless_header [data] SETTINGS.UUID with
        | .ok vless =>
          let cd' := { cd2 with targetInfo := some (vless.hostname, vless.port) }
          match cd'.writerWrites with
          | some logw =>
            { cd' with writerWrites := some (logw ++ [vless.resp, mockResponse]) }
          | none => cd'
        | .error _ => cd2
      else if cd2.writerWrites.isSome ∧ cd2.targetInfo.isSome then
        match cd2.writerWrites with
        | some logw => { cd2 with writerWrites := some (logw ++ [ackBytes]) }
        | none => cd2
      else cd2
    let cd4 := if seq > cd3.maxSeq then { cd3 with maxSeq := seq } else cd3
    (some cd4, ⟨200, .text "OK"⟩)

/-- `handleGetRequest(uuid)` (vless.ts lines 428-541) acting on this id's
entry. A missing entry is created with the fresh writer installed; an
existing entry has its old writer closed and replaced by the fresh one
(modelled by installing the empty log), and, when `targetInfo` is set and
chunk 0 is stored, chunk 0 is re-parsed: on success the reply preamble and
then (because `establishConnection` throws) `mockResponse` are written to the
new writer; on failure nothing is written. Always returns the 200 streaming
response. -/
def handleGetRequest (entry : Option ClientData) (now : Nat) :
    Option ClientData × HttpResponse :=
  match entry with
  | none => (some ⟨[], now, some [], -1, none, []⟩, ⟨200, .stream⟩)
  | some cd =>
    let cd1 := { cd with lastActivity := now }
    let cd2 := { cd1 with writerWrites := some [] }
    let cd3 :=
      if cd2.targetInfo.isSome ∧ (mapGet cd2.posts 0).isSome then
        match mapGet cd2.posts 0 with
        | some firstPacket =>
          match read_vless_header [firstPacket] SETTINGS.UUID with
          | .ok vless => { cd2 with writerWrites := some [vless.resp, mockResponse] }
          | .error _ => cd2
        | none => cd2
      else cd2
    (some cd3, ⟨200, .stream⟩)

/-- `handleVlessRequest(request)` (vless.ts lines 550-633), the legacy
single-POST path: a missing body or a decoder failure is caught at line 629
and answered with status 400 and the error message interpolated into the
body; the success path returns the 200 streaming response (its fetch-based
relay towards the destination is external to the claims). -/
def handleVlessRequest (bodyFrags : Option (List (List Nat))) : HttpResponse :=
  match bodyFrags with
  | none => ⟨400, .text "VLESS Error: No request body"⟩
  | some fs =>
    match read_vless_header fs SETTINGS.UUID with
    | .error e => ⟨400, .text ("VLESS Error: " ++ e)⟩
    | .ok _ => ⟨200, .stream⟩

/-- A one-byte chunk used to drive unbounded sequences of POSTs. -/
def spamChunk : List Nat := [9]

/-- The session entry after POSTing `spamChunk` as seq `0, 1, ..., n` in
order (each a fresh `handlePostRequest`, no GET in between). -/
def runUp : Nat → Option ClientData
  | 0 => (handlePostRequest none 0 (some spamChunk) 0).1
  | n + 1 => (handlePostRequest (runUp n) (Int.ofNat (n + 1)) (some spamChunk) 0).1

/-- Closed form of the posts map built by `runUp`. -/
def postsOf (n : Nat) : List (Int × List Nat) :=
  (List.range (n + 1)).map (fun i => (Int.ofNat i, spamChunk))

/-- A concrete session entry holding one accepted chunk (seq 0), used to
witness resubmission behaviour. -/
def c6cd : ClientData := ⟨[((0 : Int), [9])], 0, none, 0, none, []⟩

/-- A concrete session entry with a completed handshake and chunk 0 stored,
used to witness the GET-attach preamble. -/
def c8cd : ClientData := ⟨[((0 : Int), hsIPv4)], 0, none, 0, some ("192.168.0.1", 443), []⟩

/-! ## General lemmas about the model -/

theorem parse_uuid_settings : parse_uuid SETTINGS.UUID = cfgSecret := by decide

/-- On success, `read_atleast` hands back the concatenation of the fragments
it pulled (a minimal prefix of the source reaching `n` bytes), with the
surplus beyond `n` retained. -/
theorem read_atleast_ok_spec (fs : List (List Nat)) :
    ∀ (n : Nat) (v : List Nat) (d : Bool) (rest : List (List Nat)),
      read_atleast fs n = .ok (v, d, rest) →
      ∃ P, fs = P ++ rest ∧ v = P.flatten ∧ n ≤ v.length ∧ d = false ∧
        (0 < n → P.dropLast.flatten.length < n) := by
  induction fs with
  | nil =>
    intro n v d rest h
    match n with
    | 0 =>
      simp only [read_atleast, Except.ok.injEq, Prod.mk.injEq] at h
      exact ⟨[], by simp [← h.1, ← h.2.1, ← h.2.2]⟩
    | n + 1 => simp [read_atleast] at h
  | cons f rest' ih =>
    intro n v d rest h
    match n with
    | 0 =>
      simp only [read_atleast, Except.ok.injEq, Prod.mk.injEq] at h
      exact ⟨[], by simp [← h.1, ← h.2.1, ← h.2.2]⟩
    | n + 1 =>
      rw [read_atleast] at h
      by_cases hf : n + 1 ≤ f.length
      · rw [if_pos hf] at h
        simp only [Except.ok.injEq, Prod.mk.injEq] at h
        obtain ⟨h1, h2, h3⟩ := h
        refine ⟨[f], by simp [← h3], by simp [← h1], ?_, h2.symm, by simp⟩
        rw [← h1]; exact hf
      · rw [if_neg hf] at h
        cases hrec : read_atleast rest' (n + 1 - f.length) with
        | error e => rw [hrec] at h; cases h
        | ok t =>
          obtain ⟨v', d', r'⟩ := t
          rw [hrec] at h
          simp only [Except.ok.injEq, Prod.mk.injEq] at h
          obtain ⟨hv, hd, hr⟩ := h
          obtain ⟨P', hP1, hP2, hP3, hP4, hP5⟩ := ih _ _ _ _ hrec
          have hfl : f.length ≤ n := by omega
          have hpos : 0 < n + 1 - f.length := by omega
          have hne : P' ≠ [] := by
            intro hcon
            rw [hcon] at hP2
            simp at hP2
            rw [hP2] at hP3
            simp at hP3
            omega
          refine ⟨f :: P', ?_, ?_, ?_, ?_, ?_⟩
          · rw [← hr, hP1]; simp
          · rw [← hv, hP2]; simp
          · rw [← hv]
            have := hP5 hpos
            simp only [List.length_append]
            omega
          · rw [← hd]; exact hP4
          · intro _
            rw [List.dropLast_cons_of_ne_nil hne]
            have := hP5 hpos
            simp only [List.flatten_cons, List.length_append]
            omega

/-- A failing `read_atleast` means the whole source holds fewer than `n`
bytes. -/
theorem read_atleast_error_len (fs : List (List Nat)) :
    ∀ (n : Nat) (e : String), read_atleast fs n = .error e → fs.flatten.length < n := by
  induction fs with
  | nil =>
    intro n e h
    match n with
    | 0 => simp [read_atleast] at h
    | n + 1 => simp
  | cons f rest' ih =>
    intro n e h
    match n with
    | 0 => simp [read_atleast] at h
    | n + 1 =>
      rw [read_atleast] at h
      by_cases hf : n + 1 ≤ f.length
      · rw [if_pos hf] at h; cases h
      · rw [if_neg hf] at h
        cases hrec : read_atleast rest' (n + 1 - f.length) with
        | ok t => rw [hrec] at h; cases h
        | error e' =>
          have := ih _ _ hrec
          simp only [List.flatten_cons, List.length_append]
          omega

/-- Two entries of a map with `Nodup` keys that share a key are equal. -/
theorem eq_of_mem_of_nodup_keys {m : List (Int × List Nat)}
    (hn : (m.map Prod.fst).Nodup) {p q : Int × List Nat}
    (hp : p ∈ m) (hq : q ∈ m) (hk : p.1 = q.1) : p = q := by
  induction m with
  | nil => cases hp
  | cons a t ih =>
    simp only [List.map_cons, List.nodup_cons] at hn
    rcases List.mem_cons.mp hp with hpa | hpt <;>
      rcases List.mem_cons.mp hq with hqa | hqt
    · rw [hpa, hqa]
    · exfalso
      apply hn.1
      have hmem : q.1 ∈ t.map Prod.fst := List.mem_map_of_mem Prod.fst hqt
      rwa [← hk, hpa] at hmem
    · exfalso
      apply hn.1
      have hmem : p.1 ∈ t.map Prod.fst := List.mem_map_of_mem Prod.fst hpt
      rwa [hk, hqa] at hmem
    · exact ih hn.2 hpt hqt

/-- Re-`set`ting a key to the value it already holds leaves a
unique-key map unchanged. -/
theorem mapSet_self (m : List (Int × List Nat)) (k : Int) (v : List Nat)
    (hn : (m.map Prod.fst).Nodup) (hget : mapGet m k = some v) :
    mapSet m k v = m := by
  obtain ⟨q, hfind, hqv⟩ : ∃ q, m.find? (fun p => p.1 == k) = some q ∧ q.2 = v := by
    unfold mapGet at hget
    cases hf : m.find? (fun p => p.1 == k) with
    | none => rw [hf] at hget; cases hget
    | some q => rw [hf] at hget; exact ⟨q, rfl, by simpa using hget⟩
  have hqm : q ∈ m := List.mem_of_find?_eq_some hfind
  have hqk : q.1 = k := by simpa using List.find?_some hfind
  have hany : m.any (fun p => p.1 == k) = true :=
    List.any_eq_true.mpr ⟨q, hqm, by simpa using hqk⟩
  unfold mapSet
  rw [hany, if_pos rfl]
  have hmap : m.map (fun p => if p.1 == k then (k, v) else p) = m.map id := by
    apply List.map_congr_left
    intro p hp
    by_cases hpk : p.1 = k
    · have hpq : p = q := eq_of_mem_of_nodup_keys hn hp hqm (by rw [hpk, hqk])
      rw [if_pos (by simpa using hpk)]
      obtain ⟨q1, q2⟩ := q
      simp only at hqk hqv
      rw [hpq, hqk, hqv]
      rfl
    · rw [if_neg (by simpa using hpk)]
      rfl
  rw [hmap, List.map_id]

/-- Slicing the secret bytes 1..16 out of a buffered prefix of at least 17
bytes agrees with slicing them out of the whole stream. -/
theorem slice_secret_of_prefix (v w : List Nat) (h : 17 ≤ v.length) :
    ((v ++ w).drop 1).take 16 = (v.drop 1).take 16 := by
  rw [List.drop_append_of_le_length (by omega)]
  rw [List.take_append_of_le_length (by simp; omega)]

/-- Every success of the decoder core carries the reply preamble
`[version, 0]` built on its success path. -/
theorem read_vless_header_core_resp_shape (fs : List (List Nat)) (cfg : String)
    (st : HdrState) (v : VlessHeader)
    (h : read_vless_header_core fs cfg = (st, .ok v)) : v.resp = [v.version, 0] := by
  unfold read_vless_header_core at h
  simp only at h
  repeat'
    split at h
  all_goals
    simp only [Prod.mk.injEq] at h
  all_goals
    first
    | exact Except.noConfusion h.2
    | rfl
    | (rw [← Except.ok.inj h.2])

/-- Every successful decode carries the reply preamble `[version, 0]`. -/
theorem read_vless_header_resp_shape (fs : List (List Nat)) (cfg : String) (v : VlessHeader)
    (h : read_vless_header fs cfg = .ok v) : v.resp = [v.version, 0] := by
  have hpair : read_vless_header_core fs cfg =
      ((read_vless_header_core fs cfg).1, (read_vless_header_core fs cfg).2) := rfl
  rw [show (read_vless_header_core fs cfg).2 = .ok v from h] at hpair
  exact read_vless_header_core_resp_shape fs cfg _ v hpair

/-- Any POST with a body is acknowledged with `200 OK`. -/
theorem handlePost_status (entry : Option ClientData) (seq : Int) (data : List Nat)
    (now : Nat) : (handlePostRequest entry seq (some data) now).2 = ⟨200, .text "OK"⟩ := rfl

/-- One in-order POST step on a writer-less session entry. -/
theorem handlePost_step (cd : ClientData) (seq : Int) (data : List Nat) (now : Nat)
    (h0 : ¬ seq = 0) (hw : cd.writerWrites = none) (hmax : cd.maxSeq < seq) :
    handlePostRequest (some cd) seq (some data) now =
      (some { cd with lastActivity := now, posts := mapSet cd.posts seq data, maxSeq := seq },
        ⟨200, .text "OK"⟩) := by
  simp only [handlePostRequest, hw]
  rw [if_neg (show ¬(seq = 0 ∧ mapSize (mapSet cd.posts seq data) = 1) from
    fun hc => h0 hc.1)]
  rw [if_neg (show ¬((none : Option (List (List Nat))).isSome = true ∧
    cd.targetInfo.isSome = true) from by simp)]
  rw [if_pos hmax]

/-- `postsOf n` holds no entry keyed `n + 1`. -/
theorem postsOf_any_false (n : Nat) :
    (postsOf n).any (fun p => p.1 == Int.ofNat (n + 1)) = false := by
  rw [List.any_eq_false]
  intro p hp
  simp only [postsOf, List.mem_map, List.mem_range] at hp
  obtain ⟨i, hi, rfl⟩ := hp
  simp only [beq_eq_false_iff_ne, ne_eq]
  intro hc
  rw [beq_iff_eq] at hc
  exact absurd (Int.ofNat.inj hc) (by omega)

/-- Posting seq `n + 1` extends `postsOf n` at the end. -/
theorem postsOf_succ (n : Nat) :
    mapSet (postsOf n) (Int.ofNat (n + 1)) spamChunk = postsOf (n + 1) := by
  unfold mapSet
  rw [postsOf_any_false n]
  rw [if_neg (by simp)]
  show _ = (List.range (n + 1 + 1)).map _
  rw [List.range_succ, List.map_append]
  rfl

/-- Closed form of the session entry built by `runUp`. -/
theorem runUp_eq (n : Nat) :
    runUp n = some ⟨postsOf n, 0, none, Int.ofNat n, none, []⟩ := by
  induction n with
  | zero => decide
  | succ n ih =>
    rw [runUp, ih, handlePost_step _ _ _ _
      (fun hc => Nat.succ_ne_zero n (Int.ofNat.inj hc)) rfl (Int.ofNat_lt.mpr (by omega))]
    simp only [Option.some.injEq]
    show ClientData.mk (mapSet (postsOf n) (Int.ofNat (n + 1)) spamChunk) 0 none
        (Int.ofNat (n + 1)) none [] = _
    rw [postsOf_succ]

/-- The first `inner_read_until` call of a decode delegates directly to
`read_atleast`. -/
theorem inner_read_until_init (fs : List (List Nat)) (offset : Nat) (hpos : 0 < offset) :
    inner_read_until ⟨0, [], false, fs⟩ offset =
      match read_atleast fs offset with
      | .error e => (⟨0, [], false, []⟩, some e)
      | .ok (v, d, rest) => (⟨v.length, v, d, rest⟩, none) := by
  unfold inner_read_until
  dsimp only
  rw [if_neg (by simp), if_neg (by omega), Nat.sub_zero]
  cases hra : read_atleast fs offset with
  | error e => rfl
  | ok t =>
    obtain ⟨v, d, rest⟩ := t
    simp

/-- A POST with a body always acknowledges `200 OK`, stores the chunk under
its sequence number, and raises `maxSeq` to `seq` exactly when `seq` exceeds
it; no branch touches `posts` or `maxSeq` otherwise. -/
theorem handlePost_fields (cd : ClientData) (seq : Int) (data : List Nat) (now : Nat) :
    ∃ cd', handlePostRequest (some cd) seq (some data) now = (some cd', ⟨200, .text "OK"⟩)
      ∧ cd'.posts = mapSet cd.posts seq data
      ∧ cd'.maxSeq = (if cd.maxSeq < seq then seq else cd.maxSeq) := by
  simp only [handlePostRequest]
  refine ⟨_, rfl, ?_, ?_⟩ <;> (repeat' split) <;> (try simp_all) <;> omega

/-! ## Claims -/

/-- C1: the claim asserts the upstream write stream equals chunk 0's
leftover payload followed by chunks 1..k verbatim, with no fabricated bytes.
The code violates this: after a GET attach and an in-order run
seq 0 (valid handshake to 192.168.0.1:443 with leftover [0xAA, 0xBB]) then
seq 1 ([0xCC]), nothing at all has been written upstream (vless.ts never
writes to an upstream channel: `establishConnection` is undefined and the
seq≥1 branch only acknowledges), while the downlink sink received the
preamble followed by 2048 fabricated mock bytes and the literal "ACK"
bytes — data never received from the client. -/
theorem c1_no_upstream_forwarding :
    (handlePostRequest (handlePostRequest (handleGetRequest none 0).1 0
        (some (hsIPv4 ++ [0xAA, 0xBB])) 0).1 1 (some [0xCC]) 0).1
      = some ⟨[(0, hsIPv4 ++ [0xAA, 0xBB]), (1, [0xCC])], 0,
          some [[0, 0], mockResponse, ackBytes], 1, some ("192.168.0.1", 443), []⟩
    ∧ (read_vless_header [hsIPv4 ++ [0xAA, 0xBB]] SETTINGS.UUID).toOption.map
        (fun v => v.data) = some [0xAA, 0xBB]
    ∧ ([] : List (List Nat)).flatten ≠ [0xAA, 0xBB] ++ [0xCC] :=
  ⟨rfl, by decide, by decide⟩

/-- C2: the claim asserts a decoder failure prevents session creation and
surfaces a generic client error. The code violates this: a POST of seq 0
whose 18 bytes carry a wrong secret still creates the session entry (with
the chunk stored) and is acknowledged `200 OK`; and the legacy
`handleVlessRequest` path even echoes the decoder failure's message
("invalid UUID") to the client in a 400 body. -/
theorem c2_decoder_failure_keeps_session :
    handlePostRequest none 0 (some (List.replicate 18 0)) 0
      = (some ⟨[(0, List.replicate 18 0)], 0, none, 0, none, []⟩, ⟨200, .text "OK"⟩)
    ∧ read_vless_header [List.replicate 18 0] SETTINGS.UUID = .error "invalid UUID"
    ∧ handleVlessRequest (some [List.replicate 18 0])
        = ⟨400, .text "VLESS Error: invalid UUID"⟩ := by
  decide

/-- C3: the claim asserts a sequence-number gap destroys the session and a
subsequent GET returns not-found. The code violates this: after seq 0
(accepted) a POST of seq 5 stores the chunk and raises `maxSeq`, the session
survives, and the subsequent GET answers 200 with a stream; a GET for an
unknown id also answers 200 (it creates the session), never 404. -/
theorem c3_gap_not_destroyed :
    (handlePostRequest (handlePostRequest none 0 (some hsIPv4) 0).1 5 (some [1]) 0).1
      = some ⟨[(0, hsIPv4), (5, [1])], 0, none, 5, some ("192.168.0.1", 443), []⟩
    ∧ (handleGetRequest (handlePostRequest (handlePostRequest none 0 (some hsIPv4) 0).1 5
        (some [1]) 0).1 0).2.status = 200
    ∧ (handleGetRequest none 0).2.status = 200 := by
  decide

/-- C4: the claim asserts a fixed cap on uplink-buffer occupancy, enforced
by terminating the session. The code violates this: posting chunks seq
0..n (every one acknowledged `200 OK`) grows the buffer to n + 1 entries
for every n — no occupancy check exists (`SETTINGS.BUFFER_SIZE` is never
consulted) and the session is never terminated. -/
theorem c4_unbounded_buffer (n : Nat) :
    ∃ cd, runUp n = some cd ∧ mapSize cd.posts = n + 1 ∧
      (handlePostRequest (runUp n) (Int.ofNat (n + 1)) (some spamChunk) 0).2 =
        ⟨200, .text "OK"⟩ :=
  ⟨_, runUp_eq n, by simp [mapSize, postsOf], handlePost_status _ _ _ _⟩

/-- C5 counterexample: the claim bounds the bytes consumed before an
authentication failure by the 18-byte prefix. On a source that delivers a
single 19-byte fragment with a mismatched secret, the decoder fails with
the authentication error but has consumed all 19 bytes (fragments are
pulled whole), exceeding 18. -/
theorem c5_counterexample :
    read_vless_header [List.replicate 19 0] SETTINGS.UUID = .error "invalid UUID"
    ∧ (read_vless_header_core [List.replicate 19 0] SETTINGS.UUID).1.readed_len = 19
    ∧ 18 < (read_vless_header_core [List.replicate 19 0] SETTINGS.UUID).1.readed_len := by
  decide

/-- C5 (amended): a handshake whose secret bytes differ from the configured
secret is rejected with the authentication error, and the decoder consumes
only the minimal prefix of source fragments covering the fixed 18-byte
prefix (exactly 18 bytes whenever fragment boundaries align, e.g.
byte-sized fragments); it never requests bytes beyond that prefix. -/
theorem c5_auth_reject (fs : List (List Nat)) (cfg : String)
    (hlen : 18 ≤ fs.flatten.length)
    (hmis : validate_uuid ((fs.flatten.drop 1).take 16) (parse_uuid cfg) = false) :
    read_vless_header fs cfg = .error "invalid UUID"
    ∧ ∃ P rest, fs = P ++ rest
        ∧ (read_vless_header_core fs cfg).1 = ⟨P.flatten.length, P.flatten, false, rest⟩
        ∧ 18 ≤ P.flatten.length ∧ P.dropLast.flatten.length < 18 := by
  cases hra : read_atleast fs (1 + 16 + 1) with
  | error e =>
    exact absurd hlen (by have := read_atleast_error_len fs _ _ hra; omega)
  | ok t =>
    obtain ⟨v, d, rest⟩ := t
    obtain ⟨P, hP1, hP2, hP3, hP4, hP5⟩ := read_atleast_ok_spec fs _ v d rest hra
    subst hP4
    have hval : validate_uuid ((v.drop 1).take 16) (parse_uuid cfg) = false := by
      have hfl : fs.flatten = v ++ rest.flatten := by
        rw [hP1, List.flatten_append, hP2]
      rw [hfl, slice_secret_of_prefix v rest.flatten (by omega)] at hmis
      exact hmis
    have hcore : read_vless_header_core fs cfg =
        (⟨v.length, v, false, rest⟩, .error "invalid UUID") := by
      simp only [read_vless_header_core, inner_read_until_init fs (1 + 16 + 1) (by omega),
        hra, hval, Bool.not_false, if_true]
    refine ⟨?_, P, rest, hP1, ?_, ?_, hP5 (by omega)⟩
    · unfold read_vless_header
      rw [hcore]
    · rw [hcore, hP2]
    · rw [← hP2]
      exact hP3

/-- C5 witness: the amended theorem at a concrete mismatched-secret source
split into a 9-byte and a 10-byte fragment. -/
theorem c5_auth_reject_witness :
    read_vless_header [List.replicate 9 0, List.replicate 10 0] SETTINGS.UUID =
        .error "invalid UUID"
    ∧ ∃ P rest, [List.replicate 9 0, List.replicate 10 0] = P ++ rest
        ∧ (read_vless_header_core [List.replicate 9 0, List.replicate 10 0]
            SETTINGS.UUID).1 = ⟨P.flatten.length, P.flatten, false, rest⟩
        ∧ 18 ≤ P.flatten.length ∧ P.dropLast.flatten.length < 18 :=
  c5_auth_reject [List.replicate 9 0, List.replicate 10 0] SETTINGS.UUID
    (by decide) (by decide)

/-- C6 counterexample: the claim asserts resubmitting an accepted sequence
number leaves the buffer unchanged. The code overwrites the stored chunk:
after seq 0 and seq 1 ([1]) are accepted, resubmitting seq 1 with body [2]
replaces the stored bytes (the request is still acknowledged `200 OK` and
`maxSeq` is unchanged). -/
theorem c6_counterexample :
    (handlePostRequest (handlePostRequest none 0 (some [9]) 0).1 1 (some [1]) 0).1
      = some ⟨[(0, [9]), (1, [1])], 0, none, 1, none, []⟩
    ∧ handlePostRequest (handlePostRequest (handlePostRequest none 0 (some [9]) 0).1 1
        (some [1]) 0).1 1 (some [2]) 0
      = (some ⟨[(0, [9]), (1, [2])], 0, none, 1, none, []⟩, ⟨200, .text "OK"⟩)
    ∧ ([(0, [9]), (1, [2])] : List (Int × List Nat)) ≠ [(0, [9]), (1, [1])] := by
  decide

/-- C6 (amended): resubmitting a sequence number not above `maxSeq` leaves
`maxSeq` unchanged and is still acknowledged `200 OK`; the stored chunk is
overwritten with the resubmitted body, so the buffer is unchanged exactly
when the resubmitted bytes equal the stored ones (the retransmit case). -/
theorem c6_resubmit_ack (cd : ClientData) (seq : Int) (data : List Nat) (now : Nat)
    (hseq : seq ≤ cd.maxSeq) (hnodup : (cd.posts.map Prod.fst).Nodup) :
    (∃ cd', (handlePostRequest (some cd) seq (some data) now).1 = some cd'
        ∧ cd'.posts = mapSet cd.posts seq data ∧ cd'.maxSeq = cd.maxSeq)
    ∧ (handlePostRequest (some cd) seq (some data) now).2 = ⟨200, .text "OK"⟩
    ∧ (mapGet cd.posts seq = some data →
        ∃ cd', (handlePostRequest (some cd) seq (some data) now).1 = some cd'
          ∧ cd'.posts = cd.posts ∧ cd'.maxSeq = cd.maxSeq) := by
  obtain ⟨cd', heq, hposts, hmax⟩ := handlePost_fields cd seq data now
  have hmax' : cd'.maxSeq = cd.maxSeq := by
    rw [hmax, if_neg (by omega)]
  refine ⟨⟨cd', by rw [heq], hposts, hmax'⟩, by rw [heq], ?_⟩
  intro hget
  exact ⟨cd', by rw [heq],
    by rw [hposts, mapSet_self cd.posts seq data hnodup hget], hmax'⟩

/-- C6 witness: the amended theorem on a session holding chunk 0 = [9],
resubmitting seq 0 with the identical bytes. -/
theorem c6_resubmit_ack_witness :
    (∃ cd', (handlePostRequest (some c6cd) 0 (some [9]) 5).1 = some cd'
        ∧ cd'.posts = mapSet c6cd.posts 0 [9] ∧ cd'.maxSeq = c6cd.maxSeq)
    ∧ (handlePostRequest (some c6cd) 0 (some [9]) 5).2 = ⟨200, .text "OK"⟩
    ∧ (mapGet c6cd.posts 0 = some [9] →
        ∃ cd', (handlePostRequest (some c6cd) 0 (some [9]) 5).1 = some cd'
          ∧ cd'.posts = c6cd.posts ∧ cd'.maxSeq = c6cd.maxSeq) :=
  c6_resubmit_ack c6cd 0 [9] 5 (by decide) (by decide)

/-- C7: the claim asserts the handshake is parsed at most once, from seq 0
only, that no later chunk can change the destination, and that a handshake
not fitting in chunk 0 destroys the session. The code violates this:
resubmitting seq 0 with a different valid handshake re-parses it and
rewrites the session's destination from 192.168.0.1:443 to 10.0.0.1:80;
and a truncated chunk-0 handshake leaves the session alive. -/
theorem c7_destination_redeclared :
    ((handlePostRequest none 0 (some hsIPv4) 0).1).map (fun cd => cd.targetInfo)
      = some (some ("192.168.0.1", 443))
    ∧ ((handlePostRequest (handlePostRequest none 0 (some hsIPv4) 0).1 0
        (some hsIPv4Alt) 0).1).map (fun cd => cd.targetInfo)
      = some (some ("10.0.0.1", 80))
    ∧ ((handlePostRequest none 0 (some (hsIPv4.take 10)) 0).1).isSome = true := by
  decide

/-- C8 counterexample: the claim asserts every GET attach to a session with
a completed handshake writes the preamble [version, 0] first. Reachable
violation: POST seq 0 with a valid handshake, then resubmit seq 0 with the
junk byte [0] (destination stays set, chunk 0 is overwritten); the GET
attach then re-parses the junk, fails, and writes nothing, and the next
POST makes "ACK" the first bytes on the attached sink. -/
theorem c8_counterexample :
    ((handlePostRequest (handlePostRequest none 0 (some hsIPv4) 0).1 0
        (some [0]) 0).1).map (fun cd => cd.targetInfo)
      = some (some ("192.168.0.1", 443))
    ∧ (handlePostRequest (handleGetRequest (handlePostRequest (handlePostRequest none 0
        (some hsIPv4) 0).1 0 (some [0]) 0).1 0).1 1 (some [5]) 0).1
      = some ⟨[(0, [0]), (1, [5])], 0, some [ackBytes], 1,
          some ("192.168.0.1", 443), []⟩
    ∧ ackBytes ≠ [0, 0] := by
  decide

/-- C8 (amended): for every GET attach to a session whose handshake is
complete and whose stored chunk 0 still decodes (in particular whenever
chunk 0 was not overwritten after the handshake), the reply preamble is the
first write to the newly attached sink; and the decoder always computes the
reply preamble as exactly [version, 0x00]. -/
theorem c8_attach_preamble :
    (∀ (cd : ClientData) (now : Nat) (fp : List Nat) (v : VlessHeader),
        cd.targetInfo.isSome = true → mapGet cd.posts 0 = some fp →
        read_vless_header [fp] SETTINGS.UUID = .ok v →
        (handleGetRequest (some cd) now).1 =
          some { cd with lastActivity := now,
                         writerWrites := some [v.resp, mockResponse] })
    ∧ (∀ (fs : List (List Nat)) (cfg : String) (v : VlessHeader),
        read_vless_header fs cfg = .ok v → v.resp = [v.version, 0]) := by
  refine ⟨?_, read_vless_header_resp_shape⟩
  intro cd now fp v hti hget hok
  simp only [handleGetRequest, hget, hok, hti, Option.isSome_some, and_self, if_true]

/-- C8 witness: the amended theorem at a session holding the valid
handshake to 192.168.0.1:443 as chunk 0. -/
theorem c8_attach_preamble_witness :
    (handleGetRequest (some c8cd) 7).1 =
      some { c8cd with lastActivity := 7,
                       writerWrites := some [[0, 0], mockResponse] }
    ∧ (⟨0, "192.168.0.1", 443, [], [0, 0]⟩ : VlessHeader).resp = [0, 0] :=
  ⟨c8_attach_preamble.1 c8cd 7 hsIPv4 ⟨0, "192.168.0.1", 443, [], [0, 0]⟩
      (by decide) (by decide) (by decide),
    c8_attach_preamble.2 [hsIPv4] SETTINGS.UUID _ (by decide)⟩

/-- C9: the decoder's reference cases. A full handshake with IPv4 address
bytes [192, 168, 0, 1] decodes to hostname "192.168.0.1"; one with the
domain address type, length byte 11 and the bytes of "example.com" decodes
to hostname "example.com"; in both, the big-endian port bytes
[0x01, 0xBB] decode to 443. -/
theorem c9_reference_cases :
    read_vless_header [hsIPv4] SETTINGS.UUID
      = .ok ⟨0, "192.168.0.1", 443, [], [0, 0]⟩
    ∧ read_vless_header [hsDomain] SETTINGS.UUID
      = .ok ⟨0, "example.com", 443, [], [0, 0]⟩ := by
  decide

/-- C10: a successful `read_atleast` returns exactly the concatenation of
the fragments it pulled, in arrival order; the total may strictly exceed
the requested count, with the surplus retained — exhibited concretely, and
exploited by `read_vless_header` to capture the leftover payload glued
after the handshake. -/
theorem c10_read_atleast_concat :
    (∀ (fs : List (List Nat)) (n : Nat) (v : List Nat) (d : Bool)
        (rest : List (List Nat)),
        read_atleast fs n = .ok (v, d, rest) →
        ∃ P, fs = P ++ rest ∧ v = P.flatten ∧ n ≤ v.length)
    ∧ read_atleast [[5], [6, 7]] 2 = .ok ([5, 6, 7], false, [])
    ∧ 2 < [5, 6, 7].length
    ∧ read_vless_header [hsIPv4 ++ [0xAA, 0xBB]] SETTINGS.UUID =
        .ok ⟨0, "192.168.0.1", 443, [0xAA, 0xBB], [0, 0]⟩ := by
  refine ⟨?_, by decide, by decide, by decide⟩
  intro fs n v d rest h
  obtain ⟨P, h1, h2, h3, _, _⟩ := read_atleast_ok_spec fs n v d rest h
  exact ⟨P, h1, h2, h3⟩

/-- C10 witness: the universal part applied to the concrete two-fragment
source. -/
theorem c10_read_atleast_concat_witness :
    ∃ P, [[5], [6, 7]] = P ++ ([] : List (List Nat)) ∧ [5, 6, 7] = P.flatten
      ∧ 2 ≤ [5, 6, 7].length :=
  c10_read_atleast_concat.1 [[5], [6, 7]] 2 [5, 6, 7] false [] (by decide)
